import Mathlib

/-!
Verification of the `Computeflow` forward operator
(`lib/computing_flow_layer/computing_flow_op.cc`, class `ComputeFlowOp<CPUDevice, T>`).

Modelling choices:
* The numeric type `T` (float/double) is idealised as an arbitrary
  `LinearOrderedCommRing α`: the kernel uses only `+`, `-`, `*` and order
  comparisons (there is no division anywhere on this path), so every
  definition is stated generically; universally quantified theorems hold for
  `α = ℚ` or `α = ℝ`, and concrete scenarios are run at `α = ℤ`, where every
  definition evaluates by `decide`.
* The previous-frame 3D point field `bottom_points` can hold NaN channels;
  a channel is modelled as `Option α` with `none` standing for NaN (the only
  NaN handling on this path is the sentinel write and the `std::isnan` test).
  The output point field `top_points` likewise uses `none` for the NaN
  sentinel written at initialisation.
* The source compares Euclidean distances `dis = sqrt(…)`, initialises the
  running minimum to `1000.0` and finally tests `dmin < threshold_`, where
  the construction-time check guarantees `threshold_ ≥ 0`.  All the compared
  quantities are nonnegative and `sqrt` is strictly monotone on nonnegatives,
  so `sqrt a < sqrt b ↔ a < b` and `sqrt a < t ↔ a < t*t` for `t ≥ 0`.
  The embedding therefore tracks squared distances: the running minimum
  starts at `1000 * 1000` and the copy gate is `dmin2 < threshold * threshold`.
  Theorems about the gate carry the `0 ≤ threshold` hypothesis that the
  construction-time check enforces.
* Flat tensors are total functions on `ℤ`: the source indexes flat buffers
  with `int` expressions which can leave the tensor's extent (notably
  `fx = fy = -1` in the copy branch), and a total function represents the
  arbitrary value such a stray read returns.
-/

/-- The flat inputs of `ComputeFlowOp<CPUDevice,T>::Compute` together with the
dimensions read from `bottom_data` / `bottom_meta_data` (`batch_size`,
`height`, `width`, `num_channels`, `num_meta_data`). -/
structure FlowInput (α : Type) where
  batch_size : ℕ
  height : ℕ
  width : ℕ
  num_channels : ℕ
  num_meta_data : ℕ
  bottom_data : ℤ → α
  im_points : ℤ → Option α
  im_depth : ℤ → α
  meta_data : ℤ → α

variable {α : Type} [LinearOrderedCommRing α]

/-- `int index_pixel = n * height * width + h * width + w;` -/
def indexPixel (inp : FlowInput α) (n h w : ℕ) : ℤ :=
  (n : ℤ) * inp.height * inp.width + (h : ℤ) * inp.width + (w : ℤ)

/-- `int index = n * height * width + y * width + x;` (neighbour read). -/
def neighborIndex (inp : FlowInput α) (n : ℕ) (x y : ℤ) : ℤ :=
  (n : ℤ) * inp.height * inp.width + y * inp.width + x

/-- Backprojection of pixel `(h, w)` of batch `n` (source lines 156–170):
apply the inverse intrinsic matrix (`meta_data[9..17]`) to `(w, h, 1)`,
scale by the depth, then apply `pose_live2world` (`meta_data[30..41]`).
`index_meta_data` for batch `n` is `n * num_meta_data`. -/
def reproject (inp : FlowInput α) (n h w : ℕ) : α × α × α :=
  let md : ℤ → α := fun i => inp.meta_data ((n : ℤ) * inp.num_meta_data + i)
  let depth := inp.im_depth (indexPixel inp n h w)
  let RX := md 9 * w + md 10 * h + md 11
  let RY := md 12 * w + md 13 * h + md 14
  let RZ := md 15 * w + md 16 * h + md 17
  let X := depth * RX
  let Y := depth * RY
  let Z := depth * RZ
  (md 30 * X + md 31 * Y + md 32 * Z + md 33,
   md 34 * X + md 35 * Y + md 36 * Z + md 37,
   md 38 * X + md 39 * Y + md 40 * Z + md 41)

/-- The previous-frame 3D point at window position `(x, y)`: `some (X,Y,Z)`
when `(x, y)` passes the bounds test of line 184 and none of the three
channels is NaN (lines 186–191), otherwise `none`. -/
def neighborPoint (inp : FlowInput α) (n : ℕ) (x y : ℤ) : Option (α × α × α) :=
  if 0 ≤ x ∧ x < (inp.width : ℤ) ∧ 0 ≤ y ∧ y < (inp.height : ℤ) then
    match inp.im_points (neighborIndex inp n x y * 3 + 0),
          inp.im_points (neighborIndex inp n x y * 3 + 1),
          inp.im_points (neighborIndex inp n x y * 3 + 2) with
    | some Xp, some Yp, some Zp => some (Xp, Yp, Zp)
    | _, _, _ => none
  else none

/-- Squared Euclidean distance, the square of line 194's
`sqrt((X1-X_prev)*(X1-X_prev) + …)`. -/
def dist2 (P Q : α × α × α) : α :=
  (P.1 - Q.1) * (P.1 - Q.1) + (P.2.1 - Q.2.1) * (P.2.1 - Q.2.1) +
    (P.2.2 - Q.2.2) * (P.2.2 - Q.2.2)

/-- The scan order of the neighbourhood loops (lines 180–182): outer loop
over `x` from `w - kernel_size` to `w + kernel_size` ascending, inner loop
over `y` from `h - kernel_size` to `h + kernel_size` ascending. -/
def windowList (k h w : ℕ) : List (ℤ × ℤ) :=
  ((List.range (2 * k + 1)).map (fun i : ℕ => (w : ℤ) - (k : ℤ) + (i : ℤ))).flatMap
    (fun x => ((List.range (2 * k + 1)).map
      (fun j : ℕ => (h : ℤ) - (k : ℤ) + (j : ℤ))).map (fun y => (x, y)))

/-- The running state of the search: `T dmin` (tracked squared), `int fx`,
`int fy`. -/
structure SearchState (α : Type) where
  dmin2 : α
  fx : ℤ
  fy : ℤ

/-- One iteration of the loop body (lines 184–201): skip out-of-bounds or
NaN neighbours, otherwise replace the running best exactly when the distance
is strictly smaller. -/
def searchStep (inp : FlowInput α) (n : ℕ) (P : α × α × α) (s : SearchState α)
    (xy : ℤ × ℤ) : SearchState α :=
  match neighborPoint inp n xy.1 xy.2 with
  | some Q => if dist2 P Q < s.dmin2 then ⟨dist2 P Q, xy.1, xy.2⟩ else s
  | none => s

/-- `T dmin = 1000.0; int fx = -1; int fy = -1;` (lines 177–179), with the
minimum tracked squared. -/
def searchInit : SearchState α := ⟨1000 * 1000, -1, -1⟩

/-- The full neighbourhood search at pixel `(h, w)` whose reprojected point
is `P` (lines 177–203). -/
def search (inp : FlowInput α) (k : ℕ) (n h w : ℕ) (P : α × α × α) :
    SearchState α :=
  (windowList k h w).foldl (searchStep inp n P) searchInit

/-- Output feature tensor `top_data` at `(n, h, w, c)` (lines 147–148,
154, 205–211): zero-initialised; if the depth is positive and the final
`dmin < threshold` (squared here), the feature is copied from
`bottom_data[(n*height*width + fy*width + fx) * num_channels + c]`. -/
def topData (inp : FlowInput α) (k : ℕ) (threshold : α) (n h w c : ℕ) : α :=
  if 0 < inp.im_depth (indexPixel inp n h w) then
    if (search inp k n h w (reproject inp n h w)).dmin2 < threshold * threshold then
      inp.bottom_data
        (((n : ℤ) * inp.height * inp.width
            + (search inp k n h w (reproject inp n h w)).fy * inp.width
            + (search inp k n h w (reproject inp n h w)).fx) * inp.num_channels + c)
    else 0
  else 0

/-- Output point tensor `top_points` at `(n, h, w)` (lines 149–151,
172–174): the NaN sentinel (`none` in all three channels) unless the depth
is positive, in which case the reprojected point is written. -/
def topPoints (inp : FlowInput α) (n h w : ℕ) : Fin 3 → Option α :=
  if 0 < inp.im_depth (indexPixel inp n h w) then
    ![some (reproject inp n h w).1, some (reproject inp n h w).2.1,
      some (reproject inp n h w).2.2]
  else ![none, none, none]

/-- The squared distance the loop body computes at window position `xy`,
or `none` when that position is skipped (out of bounds or NaN channel). -/
def validAt (inp : FlowInput α) (n : ℕ) (P : α × α × α) (xy : ℤ × ℤ) : Option α :=
  (neighborPoint inp n xy.1 xy.2).map (dist2 P)

/-- Constructor checks of `ComputeFlowOp` (lines 54–67): reject a negative
`kernel_size`, then a negative `threshold`, with `InvalidArgument`. -/
def computeFlowOpInit (kernel_size : ℤ) (threshold : α) : Except String (ℤ × α) :=
  if kernel_size < 0 then Except.error "Need kernel_size >= 0"
  else if threshold < 0 then Except.error "Need threshold >= 0"
  else Except.ok (kernel_size, threshold)

/-- Constructor checks of `ComputeFlowGradOp` (lines 359–372): the same two
checks as the forward operator. -/
def computeFlowGradOpInit (kernel_size : ℤ) (threshold : α) :
    Except String (ℤ × α) :=
  if kernel_size < 0 then Except.error "Need kernel_size >= 0"
  else if threshold < 0 then Except.error "Need threshold >= 0"
  else Except.ok (kernel_size, threshold)

/-! ### Concrete inputs (run at `α = ℤ`) -/

/-- Depth map `[[1,1,1],[1,0,1],[1,1,1]]` of the spec's concrete scenario
(flat pixel 4 is the centre). -/
def depth6 : ℤ → ℤ := fun i => if i = 4 then 0 else 1

/-- Identity camera metadata: identity inverse intrinsics (offsets 9, 13, 17)
and identity `pose_live2world` (offsets 30, 35, 40). -/
def meta6 : ℤ → ℤ := fun i =>
  if i = 9 ∨ i = 13 ∨ i = 17 ∨ i = 30 ∨ i = 35 ∨ i = 40 then 1 else 0

/-- `prev_points` obtained by reprojecting the same 3×3 grid under identity
metadata: pixel `(h, w)` holds `(w, h, 1)` except the centre pixel, whose
depth is 0, which holds the NaN sentinel. -/
def points6 : ℤ → Option ℤ := fun i =>
  if i / 3 = 4 then none
  else if i % 3 = 0 then some ((i / 3) % 3)
  else if i % 3 = 1 then some ((i / 3) / 3)
  else some 1

/-- Source feature data for the 3×3 scenario: pixel `p` carries value `p+1`. -/
def data6 : ℤ → ℤ := fun i => i + 1

/-- The spec's concrete 1×3×3×1 self-match scenario. -/
def inp6 : FlowInput ℤ := ⟨1, 3, 3, 1, 48, data6, points6, depth6, meta6⟩

/-- Depth for the 2×2×2 scenario: only batch 1's pixel `(0,0)` (flat index 4)
has positive depth. -/
def depthB : ℤ → ℤ := fun i => if i = 4 then 1 else 0

/-- Previous-frame point field holding the NaN sentinel everywhere. -/
def pointsB : ℤ → Option ℤ := fun _ => none

/-- Per-batch identity metadata, one 48-value record per batch element. -/
def metaB : ℤ → ℤ := fun i => meta6 (i % 48)

/-- Feature data for the 2×2×2 scenario: flat entry `i` carries `i + 1`. -/
def dataB : ℤ → ℤ := fun i => i + 1

/-- A 2×2×2×1 input: batch 1's pixel `(0,0)` has depth 1, every
previous-frame point is the NaN sentinel. -/
def inpB : FlowInput ℤ := ⟨2, 2, 2, 1, 48, dataB, pointsB, depthB, metaB⟩

/-- Swap of the two batch slices of a flat buffer whose per-batch slice
length is `sz`. -/
def swapIdx (sz i : ℤ) : ℤ :=
  if 0 ≤ i ∧ i < sz then i + sz else if sz ≤ i ∧ i < 2 * sz then i - sz else i

/-- `inpB` with its two batch elements swapped in every input tensor
(data/depth slices of length 4, point slices of length 12, metadata records
of length 48). -/
def inpBswap : FlowInput ℤ :=
  { inpB with
    bottom_data := fun i => dataB (swapIdx 4 i)
    im_points := fun i => pointsB (swapIdx 12 i)
    im_depth := fun i => depthB (swapIdx 4 i)
    meta_data := fun i => metaB (swapIdx 48 i) }

/-- A 1×1×1×1 input: single pixel of depth 1, previous-frame point field all
NaN sentinel. -/
def inpC : FlowInput ℤ :=
  ⟨1, 1, 1, 1, 48, fun i => i, fun _ => none, fun _ => 1, meta6⟩

/-- A 1×1×2×1 input whose previous-frame point at pixel 1 is partially NaN
(`(some 100, none, some 1)`) while pixel 0 holds the valid point
`(0, 0, 1)`. -/
def points10 : ℤ → Option ℤ := fun i =>
  if i = 0 then some 0 else if i = 1 then some 0 else if i = 2 then some 1
  else if i = 3 then some 100 else if i = 4 then none
  else if i = 5 then some 1 else none

/-- 1×1×2×1 input with the partially-NaN previous point of `points10`. -/
def inp10 : FlowInput ℤ :=
  ⟨1, 1, 2, 1, 48, fun i => i + 1, points10, fun _ => 1, meta6⟩

/-- Previous points for the tie scenario: pixels 0 and 2 hold `(0,0,1)` and
`(2,0,1)`, both at squared distance 1 from the centre pixel's reprojected
point `(1,0,1)`; pixel 1 is the NaN sentinel. -/
def points4 : ℤ → Option ℤ := fun i =>
  if i = 0 then some 0 else if i = 1 then some 0 else if i = 2 then some 1
  else if i = 6 then some 2 else if i = 7 then some 0
  else if i = 8 then some 1 else none

/-- 1×1×3×1 tie-break input. -/
def inp4 : FlowInput ℤ :=
  ⟨1, 1, 3, 1, 48, fun i => i + 1, points4, fun _ => 1, meta6⟩

/-- Inverse intrinsic matrix of batch `n`, read row-major from metadata
offsets `9..17`. -/
def invIntrinsic (inp : FlowInput α) (n : ℕ) : Matrix (Fin 3) (Fin 3) α :=
  Matrix.of fun i j : Fin 3 =>
    inp.meta_data ((n : ℤ) * inp.num_meta_data + 9 + 3 * ((i : ℕ) : ℤ) + ((j : ℕ) : ℤ))

/-- Rotation block of the live-to-world pose of batch `n`: rows packed 4
values wide from metadata offset 30 (`30 + 4*i + j`). -/
def live2worldRot (inp : FlowInput α) (n : ℕ) : Matrix (Fin 3) (Fin 3) α :=
  Matrix.of fun i j : Fin 3 =>
    inp.meta_data ((n : ℤ) * inp.num_meta_data + 30 + 4 * ((i : ℕ) : ℤ) + ((j : ℕ) : ℤ))

/-- Translation column of the live-to-world pose of batch `n`
(`30 + 4*i + 3`). -/
def live2worldTrans (inp : FlowInput α) (n : ℕ) : Fin 3 → α :=
  fun i : Fin 3 =>
    inp.meta_data ((n : ℤ) * inp.num_meta_data + 30 + 4 * ((i : ℕ) : ℤ) + 3)

/-- `data6` altered everywhere outside batch 0's feature slice `[0, 9)`. -/
def data62 : ℤ → ℤ := fun i => if 0 ≤ i ∧ i < 9 then data6 i else 55

/-- `points6` altered everywhere outside batch 0's point slice `[0, 27)`. -/
def points62 : ℤ → Option ℤ :=
  fun i => if 0 ≤ i ∧ i < 27 then points6 i else some 55

/-- `depth6` altered everywhere outside batch 0's depth slice `[0, 9)`. -/
def depth62 : ℤ → ℤ := fun i => if 0 ≤ i ∧ i < 9 then depth6 i else 55

/-- `meta6` altered everywhere outside batch 0's metadata record `[0, 48)`. -/
def meta62 : ℤ → ℤ := fun i => if 0 ≤ i ∧ i < 48 then meta6 i else 55

/-- `inp6` with every buffer entry outside batch 0's slices replaced. -/
def inp62 : FlowInput ℤ := ⟨1, 3, 3, 1, 48, data62, points62, depth62, meta62⟩

/-! ### The search invariant -/

/-- Invariant of the neighbourhood scan after processing the window
positions in `done`: either no candidate has been recorded (`fx = fy = -1`,
the minimum still holds its initial value, and every processed valid
neighbour is at least that far), or the recorded position is the first
processed valid neighbour attaining the running minimum — every valid
neighbour strictly before it is strictly farther, every valid neighbour
after it is at least as far. -/
def searchInv (inp : FlowInput α) (n : ℕ) (P : α × α × α)
    (done : List (ℤ × ℤ)) (s : SearchState α) : Prop :=
  (s.fx = -1 ∧ s.fy = -1 ∧ s.dmin2 = 1000 * 1000 ∧
    ∀ xy ∈ done, ∀ d, validAt inp n P xy = some d → s.dmin2 ≤ d) ∨
  (s.dmin2 < 1000 * 1000 ∧ validAt inp n P (s.fx, s.fy) = some s.dmin2 ∧
    ∃ l1 l2, done = l1 ++ (s.fx, s.fy) :: l2 ∧
      (∀ xy ∈ l1, ∀ d, validAt inp n P xy = some d → s.dmin2 < d) ∧
      (∀ xy ∈ l2, ∀ d, validAt inp n P xy = some d → s.dmin2 ≤ d))

theorem searchStep_inv (inp : FlowInput α) (n : ℕ) (P : α × α × α)
    (done : List (ℤ × ℤ)) (s : SearchState α) (xy : ℤ × ℤ)
    (h : searchInv inp n P done s) :
    searchInv inp n P (done ++ [xy]) (searchStep inp n P s xy) := by
  unfold searchStep
  rcases hq : neighborPoint inp n xy.1 xy.2 with _ | Q
  · have hvxy : validAt inp n P xy = none := by simp [validAt, hq]
    rcases h with ⟨h1, h2, h3, h4⟩ | ⟨hlt, hv, l1, l2, hdone, hl1, hl2⟩
    · refine Or.inl ⟨h1, h2, h3, ?_⟩
      intro a ha d hd
      rcases List.mem_append.mp ha with ha | ha
      · exact h4 a ha d hd
      · rw [List.mem_singleton.mp ha, hvxy] at hd; cases hd
    · refine Or.inr ⟨hlt, hv, l1, l2 ++ [xy], by rw [hdone]; simp, hl1, ?_⟩
      intro a ha d hd
      rcases List.mem_append.mp ha with ha | ha
      · exact hl2 a ha d hd
      · rw [List.mem_singleton.mp ha, hvxy] at hd; cases hd
  · have hvxy : validAt inp n P xy = some (dist2 P Q) := by simp [validAt, hq]
    show searchInv inp n P (done ++ [xy])
      (if dist2 P Q < s.dmin2 then ⟨dist2 P Q, xy.1, xy.2⟩ else s)
    by_cases hlt : dist2 P Q < s.dmin2
    · rw [if_pos hlt]
      have hdm : s.dmin2 ≤ 1000 * 1000 := by
        rcases h with ⟨_, _, h3, _⟩ | ⟨h1, _⟩
        · exact le_of_eq h3
        · exact le_of_lt h1
      refine Or.inr ⟨lt_of_lt_of_le hlt hdm, by simpa using hvxy, done, [], by simp, ?_, by simp⟩
      intro a ha d hd
      rcases h with ⟨_, _, h3, h4⟩ | ⟨h1, hv2, l1, l2, hdone, hl1, hl2⟩
      · exact lt_of_lt_of_le hlt (h4 a ha d hd)
      · rw [hdone] at ha
        rcases List.mem_append.mp ha with ha | ha
        · exact lt_trans hlt (hl1 a ha d hd)
        · rcases List.mem_cons.mp ha with ha | ha
          · subst ha
            rw [hv2] at hd
            cases hd
            exact hlt
          · exact lt_of_lt_of_le hlt (hl2 a ha d hd)
    · rw [if_neg hlt]
      push_neg at hlt
      rcases h with ⟨h1, h2, h3, h4⟩ | ⟨h1, hv, l1, l2, hdone, hl1, hl2⟩
      · refine Or.inl ⟨h1, h2, h3, ?_⟩
        intro a ha d hd
        rcases List.mem_append.mp ha with ha | ha
        · exact h4 a ha d hd
        · rw [List.mem_singleton.mp ha, hvxy] at hd
          cases hd; exact hlt
      · refine Or.inr ⟨h1, hv, l1, l2 ++ [xy], by rw [hdone]; simp, hl1, ?_⟩
        intro a ha d hd
        rcases List.mem_append.mp ha with ha | ha
        · exact hl2 a ha d hd
        · rw [List.mem_singleton.mp ha, hvxy] at hd
          cases hd; exact hlt

theorem searchInv_foldl (inp : FlowInput α) (n : ℕ) (P : α × α × α) :
    ∀ (L done : List (ℤ × ℤ)) (s : SearchState α), searchInv inp n P done s →
      searchInv inp n P (done ++ L) (L.foldl (searchStep inp n P) s) := by
  intro L
  induction L with
  | nil => intro done s h; simpa using h
  | cons a t ih =>
    intro done s h
    have h1 := searchStep_inv inp n P done s a h
    have h2 := ih (done ++ [a]) (searchStep inp n P s a) h1
    simpa using h2

theorem search_inv (inp : FlowInput α) (k n h w : ℕ) (P : α × α × α) :
    searchInv inp n P (windowList k h w) (search inp k n h w P) := by
  have h0 : searchInv inp n P [] (searchInit (α := α)) := by
    refine Or.inl ⟨rfl, rfl, rfl, ?_⟩
    intro xy hxy
    cases hxy
  have := searchInv_foldl inp n P (windowList k h w) [] searchInit h0
  simpa [search] using this

theorem validAt_fst_neg (inp : FlowInput α) (n : ℕ) (P : α × α × α)
    (xy : ℤ × ℤ) (hx : xy.1 < 0) : validAt inp n P xy = none := by
  have : neighborPoint inp n xy.1 xy.2 = none := by
    unfold neighborPoint
    rw [if_neg]
    intro hc
    exact absurd hc.1 (not_le.mpr hx)
  simp [validAt, this]

/-- When the search records no candidate, the minimum still holds its initial
value and every valid neighbour in the window is at least that far away. -/
theorem search_none (inp : FlowInput α) (k n h w : ℕ) (P : α × α × α)
    (hfx : (search inp k n h w P).fx = -1) :
    (search inp k n h w P).dmin2 = 1000 * 1000 ∧
      ∀ xy ∈ windowList k h w, ∀ d, validAt inp n P xy = some d →
        1000 * 1000 ≤ d := by
  rcases search_inv inp k n h w P with ⟨_, _, h3, h4⟩ | ⟨_, hv, _⟩
  · exact ⟨h3, fun xy hxy d hd => h3 ▸ h4 xy hxy d hd⟩
  · rw [hfx] at hv
    rw [validAt_fst_neg inp n P _ (by norm_num)] at hv
    cases hv

/-- When the search has recorded a candidate, it is the first valid
neighbour in scan order attaining the minimum squared distance, and that
minimum is strictly below the initial `1000 * 1000`. -/
theorem search_some (inp : FlowInput α) (k n h w : ℕ) (P : α × α × α)
    (hfx : (search inp k n h w P).fx ≠ -1) :
    (search inp k n h w P).dmin2 < 1000 * 1000 ∧
      validAt inp n P ((search inp k n h w P).fx, (search inp k n h w P).fy) =
        some (search inp k n h w P).dmin2 ∧
      ∃ l1 l2, windowList k h w =
          l1 ++ ((search inp k n h w P).fx, (search inp k n h w P).fy) :: l2 ∧
        (∀ xy ∈ l1, ∀ d, validAt inp n P xy = some d →
          (search inp k n h w P).dmin2 < d) ∧
        (∀ xy ∈ l2, ∀ d, validAt inp n P xy = some d →
          (search inp k n h w P).dmin2 ≤ d) := by
  rcases search_inv inp k n h w P with ⟨h1, _⟩ | ⟨h1, hv, l1, l2, hdone, hl1, hl2⟩
  · exact absurd h1 hfx
  · exact ⟨h1, hv, l1, l2, hdone, hl1, hl2⟩

/-- A recorded neighbour satisfies the bounds test of line 184. -/
theorem neighborPoint_some_bounds (inp : FlowInput α) (n : ℕ) (x y : ℤ)
    (Q : α × α × α) (hq : neighborPoint inp n x y = some Q) :
    0 ≤ x ∧ x < (inp.width : ℤ) ∧ 0 ≤ y ∧ y < (inp.height : ℤ) := by
  by_contra hc
  rw [neighborPoint, if_neg hc] at hq
  cases hq

theorem mem_range_map {β : Type} {m : ℕ} {f : ℕ → β} {z : β} :
    z ∈ (List.range m).map f ↔ ∃ i, i < m ∧ f i = z := by
  rw [List.mem_map]
  constructor
  · rintro ⟨i, hi, rfl⟩
    exact ⟨i, List.mem_range.mp hi, rfl⟩
  · rintro ⟨i, hi, rfl⟩
    exact ⟨i, List.mem_range.mpr hi, rfl⟩

/-- Membership in the scan order list is exactly membership in the square
window `[w-k, w+k] × [h-k, h+k]`. -/
theorem mem_windowList {k h w : ℕ} {xy : ℤ × ℤ} :
    xy ∈ windowList k h w ↔
      (w : ℤ) - k ≤ xy.1 ∧ xy.1 ≤ (w : ℤ) + k ∧
      (h : ℤ) - k ≤ xy.2 ∧ xy.2 ≤ (h : ℤ) + k := by
  rcases xy with ⟨x, y⟩
  rw [windowList, List.mem_flatMap]
  constructor
  · rintro ⟨x', hx', hm⟩
    rw [mem_range_map] at hx'
    obtain ⟨i, hi, rfl⟩ := hx'
    rw [List.mem_map] at hm
    obtain ⟨y', hy', he⟩ := hm
    rw [mem_range_map] at hy'
    obtain ⟨j, hj, rfl⟩ := hy'
    cases he
    refine ⟨by omega, by omega, by omega, by omega⟩
  · rintro ⟨hx1, hx2, hy1, hy2⟩
    refine ⟨x, ?_, ?_⟩
    · rw [mem_range_map]
      exact ⟨(x - ((w : ℤ) - k)).toNat, by omega, by omega⟩
    · rw [List.mem_map]
      refine ⟨y, ?_, rfl⟩
      rw [mem_range_map]
      exact ⟨(y - ((h : ℤ) - k)).toNat, by omega, by omega⟩

/-! ### Gate helpers -/

theorem sq_le_sq_of_nonneg_le {a b : α} (h0 : 0 ≤ a) (h1 : a ≤ b) :
    a * a ≤ b * b :=
  mul_le_mul h1 h1 h0 (le_trans h0 h1)

/-- If the copy gate fires with `threshold ≤ 1000`, a candidate was
recorded. -/
theorem gate_fx (inp : FlowInput α) (k n h w : ℕ) (P : α × α × α)
    (threshold : α) (h0 : 0 ≤ threshold) (h1 : threshold ≤ 1000)
    (hg : (search inp k n h w P).dmin2 < threshold * threshold) :
    (search inp k n h w P).fx ≠ -1 := by
  intro hfx
  obtain ⟨he, _⟩ := search_none inp k n h w P hfx
  have hsq : threshold * threshold ≤ 1000 * 1000 :=
    sq_le_sq_of_nonneg_le h0 h1
  rw [he] at hg
  linarith

theorem topData_depth_pos (inp : FlowInput α) (k : ℕ) (threshold : α)
    (n h w c : ℕ) (hd : 0 < inp.im_depth (indexPixel inp n h w)) :
    topData inp k threshold n h w c =
      if (search inp k n h w (reproject inp n h w)).dmin2 <
          threshold * threshold then
        inp.bottom_data
          (((n : ℤ) * inp.height * inp.width
              + (search inp k n h w (reproject inp n h w)).fy * inp.width
              + (search inp k n h w (reproject inp n h w)).fx) *
            inp.num_channels + c)
      else 0 := by
  unfold topData
  rw [if_pos hd]

theorem topData_depth_nonpos (inp : FlowInput α) (k : ℕ) (threshold : α)
    (n h w c : ℕ) (hd : inp.im_depth (indexPixel inp n h w) ≤ 0) :
    topData inp k threshold n h w c = 0 := by
  unfold topData
  rw [if_neg (not_lt.mpr hd)]

theorem topPoints_depth_nonpos (inp : FlowInput α) (n h w : ℕ)
    (hd : inp.im_depth (indexPixel inp n h w) ≤ 0) :
    ∀ i, topPoints inp n h w i = none := by
  intro i
  unfold topPoints
  rw [if_neg (not_lt.mpr hd)]
  fin_cases i <;> rfl

/-! ### Claim theorems -/

/-- C3: for every pixel whose input depth is `≤ 0` the forward pass leaves
the output feature vector all-zero and writes the NaN sentinel as the output
3D point (the `depth > 0` guard skips the whole search). -/
theorem depth_gating (inp : FlowInput α) (k : ℕ) (threshold : α) (n h w : ℕ)
    (hd : inp.im_depth (indexPixel inp n h w) ≤ 0) :
    (∀ c, topData inp k threshold n h w c = 0) ∧
    (∀ i, topPoints inp n h w i = none) :=
  ⟨fun c => topData_depth_nonpos inp k threshold n h w c hd,
   topPoints_depth_nonpos inp n h w hd⟩

theorem depth_gating_witness :
    depth6 (indexPixel inp6 0 1 1) ≤ 0 ∧
      ((∀ c, topData inp6 1 1000 0 1 1 c = 0) ∧
        (∀ i, topPoints inp6 0 1 1 i = none)) :=
  ⟨by decide, depth_gating inp6 1 1000 0 1 1 (by decide)⟩

/-- C8: operator construction rejects a negative `kernel_size` or a negative
`threshold` with an `InvalidArgument` error and accepts any nonnegative
pair, identically for the forward (`ComputeFlowOp`) and gradient
(`ComputeFlowGradOp`) operators. -/
theorem config_error_rejection (kernel_size : ℤ) (threshold : α) :
    ((computeFlowOpInit kernel_size threshold).isOk = true ↔
      0 ≤ kernel_size ∧ 0 ≤ threshold) ∧
    computeFlowGradOpInit kernel_size threshold =
      computeFlowOpInit kernel_size threshold := by
  constructor
  · unfold computeFlowOpInit
    by_cases hk : kernel_size < 0
    · rw [if_pos hk]
      constructor
      · intro h
        cases h
      · intro h
        exact absurd h.1 (not_le.mpr hk)
    · rw [if_neg hk]
      by_cases ht : threshold < 0
      · rw [if_pos ht]
        constructor
        · intro h
          cases h
        · intro h
          exact absurd h.2 (not_le.mpr ht)
      · rw [if_neg ht]
        constructor
        · intro _
          exact ⟨not_lt.mp hk, not_lt.mp ht⟩
        · intro _
          rfl
  · unfold computeFlowOpInit computeFlowGradOpInit
    rfl

/-- C1 (amended with `threshold ≤ 1000`): under the construction-time check
`0 ≤ threshold` and with `threshold` at most the running-minimum
initialisation constant 1000, a pixel with positive depth: (a) keeps an
all-zero output feature vector whenever every valid neighbour in the window
is at (squared) distance at least `threshold²`; and (b) whenever the copy
gate fires, the copied-from position is a genuine valid neighbour of the
window whose squared distance equals the final minimum, which is strictly
below `threshold²`. -/
theorem threshold_gate (inp : FlowInput α) (k : ℕ) (threshold : α) (n h w : ℕ)
    (h0 : 0 ≤ threshold) (h1 : threshold ≤ 1000)
    (hd : 0 < inp.im_depth (indexPixel inp n h w)) :
    ((∀ xy ∈ windowList k h w, ∀ d,
        validAt inp n (reproject inp n h w) xy = some d →
        threshold * threshold ≤ d) →
      ∀ c, topData inp k threshold n h w c = 0) ∧
    ((search inp k n h w (reproject inp n h w)).dmin2 < threshold * threshold →
      ((search inp k n h w (reproject inp n h w)).fx,
        (search inp k n h w (reproject inp n h w)).fy) ∈ windowList k h w ∧
      validAt inp n (reproject inp n h w)
          ((search inp k n h w (reproject inp n h w)).fx,
           (search inp k n h w (reproject inp n h w)).fy) =
        some (search inp k n h w (reproject inp n h w)).dmin2) := by
  constructor
  · intro hfar c
    have hng : ¬ (search inp k n h w (reproject inp n h w)).dmin2 <
        threshold * threshold := by
      intro hg
      by_cases hfx : (search inp k n h w (reproject inp n h w)).fx = -1
      · obtain ⟨he, _⟩ := search_none inp k n h w (reproject inp n h w) hfx
        have hsq := sq_le_sq_of_nonneg_le h0 h1
        rw [he] at hg
        linarith
      · obtain ⟨_, hv, l1, l2, hdec, _, _⟩ :=
          search_some inp k n h w (reproject inp n h w) hfx
        have hmem : ((search inp k n h w (reproject inp n h w)).fx,
            (search inp k n h w (reproject inp n h w)).fy) ∈ windowList k h w := by
          rw [hdec]
          exact List.mem_append_right _ (List.mem_cons_self _ _)
        have := hfar _ hmem _ hv
        linarith
    rw [topData_depth_pos inp k threshold n h w c hd, if_neg hng]
  · intro hg
    have hfx := gate_fx inp k n h w (reproject inp n h w) threshold h0 h1 hg
    obtain ⟨_, hv, l1, l2, hdec, _, _⟩ :=
      search_some inp k n h w (reproject inp n h w) hfx
    refine ⟨?_, hv⟩
    rw [hdec]
    exact List.mem_append_right _ (List.mem_cons_self _ _)

theorem threshold_gate_witness :
    (0 : ℤ) ≤ 1000 ∧ (1000 : ℤ) ≤ 1000 ∧ 0 < inp6.im_depth (indexPixel inp6 0 0 0) ∧
    (((∀ xy ∈ windowList 1 0 0, ∀ d,
        validAt inp6 0 (reproject inp6 0 0 0) xy = some d →
        (1000 : ℤ) * 1000 ≤ d) →
      ∀ c, topData inp6 1 1000 0 0 0 c = 0) ∧
    ((search inp6 1 0 0 0 (reproject inp6 0 0 0)).dmin2 < (1000 : ℤ) * 1000 →
      ((search inp6 1 0 0 0 (reproject inp6 0 0 0)).fx,
        (search inp6 1 0 0 0 (reproject inp6 0 0 0)).fy) ∈ windowList 1 0 0 ∧
      validAt inp6 0 (reproject inp6 0 0 0)
          ((search inp6 1 0 0 0 (reproject inp6 0 0 0)).fx,
           (search inp6 1 0 0 0 (reproject inp6 0 0 0)).fy) =
        some (search inp6 1 0 0 0 (reproject inp6 0 0 0)).dmin2)) :=
  ⟨by decide, by decide, by decide,
    threshold_gate inp6 1 1000 0 0 0 (by decide) (by decide) (by decide)⟩

/-- C1 counterexample: in `inpB` the pixel `(0,0)` of batch 1 has depth 1,
its window (`kernel_size = 0`) contains the single position `(0,0)`, which
is not a valid neighbour (the previous-frame point field is the NaN sentinel
everywhere), so no valid neighbour is under the threshold 1001 — yet the
output feature is 2, not 0: the gate `dmin < threshold` fires on the
initial `dmin` and copies through the sentinel `fx = fy = -1`. -/
theorem threshold_gate_counterexample :
    0 < inpB.im_depth (indexPixel inpB 1 0 0) ∧
    windowList 0 0 0 = [(0, 0)] ∧
    validAt inpB 1 (reproject inpB 1 0 0) (0, 0) = none ∧
    topData inpB 0 1001 1 0 0 0 = 2 :=
  ⟨by decide, by decide, by decide, by decide⟩

/-! ### Flat-index bounds -/

theorem flat_index_bounds {N H W C : ℕ} {n c : ℕ} {x y : ℤ}
    (hn : n < N) (hc : c < C) (hx0 : 0 ≤ x) (hx : x < (W : ℤ))
    (hy0 : 0 ≤ y) (hy : y < (H : ℤ)) :
    0 ≤ ((n : ℤ) * H * W + y * W + x) * C + (c : ℤ) ∧
      ((n : ℤ) * H * W + y * W + x) * C + (c : ℤ) <
        (N : ℤ) * H * W * C := by
  have hW0 : (0 : ℤ) ≤ (W : ℤ) := Int.ofNat_nonneg W
  have hH0 : (0 : ℤ) ≤ (H : ℤ) := Int.ofNat_nonneg H
  have hC0 : (0 : ℤ) < (C : ℤ) := by omega
  have hn' : (n : ℤ) ≤ (N : ℤ) - 1 := by omega
  have e1 : y * (W : ℤ) ≤ ((H : ℤ) - 1) * W :=
    mul_le_mul_of_nonneg_right (by linarith) hW0
  have e2 : (n : ℤ) * ((H : ℤ) * W) ≤ ((N : ℤ) - 1) * ((H : ℤ) * W) :=
    mul_le_mul_of_nonneg_right hn' (by positivity)
  have hA0 : 0 ≤ (n : ℤ) * H * W + y * W + x := by
    have := mul_nonneg (mul_nonneg (Int.ofNat_nonneg n) hH0) hW0
    have := mul_nonneg hy0 hW0
    linarith
  have e3 : (n : ℤ) * H * W + y * W + x ≤ (N : ℤ) * H * W - 1 := by
    nlinarith
  constructor
  · have := mul_nonneg hA0 (le_of_lt hC0)
    have := Int.ofNat_nonneg c
    linarith
  · have e4 : ((n : ℤ) * H * W + y * W + x) * C ≤
        ((N : ℤ) * H * W - 1) * C := mul_le_mul_of_nonneg_right e3 (le_of_lt hC0)
    have hc' : (c : ℤ) ≤ (C : ℤ) - 1 := by omega
    nlinarith

/-- C2 (amended with `threshold ≤ 1000`): under the construction-time check
`0 ≤ threshold` and with `threshold` at most the initialisation constant
1000, whenever a pixel's output feature is non-zero the matched source pixel
`(fx, fy)` lies in the window `[w-k, w+k] × [h-k, h+k]` intersected with the
image bounds, and the flat read into the previous-frame feature tensor stays
within the tensor's extent `[0, batch_size*height*width*num_channels)`. -/
theorem window_bound (inp : FlowInput α) (k : ℕ) (threshold : α) (n h w c : ℕ)
    (h0 : 0 ≤ threshold) (h1 : threshold ≤ 1000)
    (hn : n < inp.batch_size) (hc : c < inp.num_channels)
    (hnz : topData inp k threshold n h w c ≠ 0) :
    ((search inp k n h w (reproject inp n h w)).fx,
      (search inp k n h w (reproject inp n h w)).fy) ∈ windowList k h w ∧
    0 ≤ (search inp k n h w (reproject inp n h w)).fx ∧
    (search inp k n h w (reproject inp n h w)).fx < (inp.width : ℤ) ∧
    0 ≤ (search inp k n h w (reproject inp n h w)).fy ∧
    (search inp k n h w (reproject inp n h w)).fy < (inp.height : ℤ) ∧
    0 ≤ ((n : ℤ) * inp.height * inp.width
        + (search inp k n h w (reproject inp n h w)).fy * inp.width
        + (search inp k n h w (reproject inp n h w)).fx) * inp.num_channels
        + (c : ℤ) ∧
    ((n : ℤ) * inp.height * inp.width
        + (search inp k n h w (reproject inp n h w)).fy * inp.width
        + (search inp k n h w (reproject inp n h w)).fx) * inp.num_channels
        + (c : ℤ) <
      (inp.batch_size : ℤ) * inp.height * inp.width * inp.num_channels := by
  have hd : 0 < inp.im_depth (indexPixel inp n h w) := by
    by_contra hdn
    exact hnz (topData_depth_nonpos inp k threshold n h w c (not_lt.mp hdn))
  have hg : (search inp k n h w (reproject inp n h w)).dmin2 <
      threshold * threshold := by
    by_contra hgn
    rw [topData_depth_pos inp k threshold n h w c hd, if_neg hgn] at hnz
    exact hnz rfl
  have hfx := gate_fx inp k n h w (reproject inp n h w) threshold h0 h1 hg
  obtain ⟨_, hv, l1, l2, hdec, _, _⟩ :=
    search_some inp k n h w (reproject inp n h w) hfx
  obtain ⟨Q, hQ, _⟩ := Option.map_eq_some'.mp hv
  obtain ⟨hb1, hb2, hb3, hb4⟩ := neighborPoint_some_bounds inp n _ _ Q hQ
  obtain ⟨hi1, hi2⟩ := flat_index_bounds (N := inp.batch_size)
    (H := inp.height) (W := inp.width) (C := inp.num_channels)
    hn hc hb1 hb2 hb3 hb4
  refine ⟨?_, hb1, hb2, hb3, hb4, hi1, hi2⟩
  rw [hdec]
  exact List.mem_append_right _ (List.mem_cons_self _ _)

theorem window_bound_witness :
    (0 : ℤ) ≤ 1000 ∧ (1000 : ℤ) ≤ 1000 ∧ 0 < inp6.batch_size ∧
    0 < inp6.num_channels ∧ topData inp6 1 1000 0 0 0 0 ≠ 0 ∧
    (((search inp6 1 0 0 0 (reproject inp6 0 0 0)).fx,
      (search inp6 1 0 0 0 (reproject inp6 0 0 0)).fy) ∈ windowList 1 0 0 ∧
    0 ≤ (search inp6 1 0 0 0 (reproject inp6 0 0 0)).fx ∧
    (search inp6 1 0 0 0 (reproject inp6 0 0 0)).fx < (inp6.width : ℤ) ∧
    0 ≤ (search inp6 1 0 0 0 (reproject inp6 0 0 0)).fy ∧
    (search inp6 1 0 0 0 (reproject inp6 0 0 0)).fy < (inp6.height : ℤ) ∧
    0 ≤ ((0 : ℤ) * inp6.height * inp6.width
        + (search inp6 1 0 0 0 (reproject inp6 0 0 0)).fy * inp6.width
        + (search inp6 1 0 0 0 (reproject inp6 0 0 0)).fx) * inp6.num_channels
        + ((0 : ℕ) : ℤ) ∧
    ((0 : ℤ) * inp6.height * inp6.width
        + (search inp6 1 0 0 0 (reproject inp6 0 0 0)).fy * inp6.width
        + (search inp6 1 0 0 0 (reproject inp6 0 0 0)).fx) * inp6.num_channels
        + ((0 : ℕ) : ℤ) <
      (inp6.batch_size : ℤ) * inp6.height * inp6.width * inp6.num_channels) :=
  ⟨by decide, by decide, by decide, by decide, by decide,
    window_bound inp6 1 1000 0 0 0 0 (by decide) (by decide) (by decide)
      (by decide) (by decide)⟩

/-- C2 counterexample: in `inpC` (single 1×1 pixel of depth 1, previous
points all NaN, `threshold = 1001`) the output feature is `-2 ≠ 0`, but the
"matched" position is the sentinel `(-1, -1)`, outside the window, and the
flat read index into the feature tensor is negative — outside the tensor's
extent. -/
theorem window_bound_counterexample :
    topData inpC 0 1001 0 0 0 0 = -2 ∧
    (search inpC 0 0 0 0 (reproject inpC 0 0 0)).fx = -1 ∧
    (search inpC 0 0 0 0 (reproject inpC 0 0 0)).fy = -1 ∧
    ¬ ((search inpC 0 0 0 0 (reproject inpC 0 0 0)).fx,
        (search inpC 0 0 0 0 (reproject inpC 0 0 0)).fy) ∈ windowList 0 0 0 ∧
    ((0 : ℤ) * inpC.height * inpC.width
        + (search inpC 0 0 0 0 (reproject inpC 0 0 0)).fy * inpC.width
        + (search inpC 0 0 0 0 (reproject inpC 0 0 0)).fx) * inpC.num_channels
        + ((0 : ℕ) : ℤ) < 0 :=
  ⟨by decide, by decide, by decide, by decide, by decide⟩

/-- C9: whenever the search has recorded a match, its squared distance (the
final minimum) is strictly below `1000² ` (the squared initialisation
constant), the recorded position really is a valid neighbour at that
distance, and the copy
gate `dmin < threshold` is equivalent to `dmin < min threshold 1000`: the
effective selection gate is `min(threshold, 1000)`, not `threshold` alone. -/
theorem distance_cap (inp : FlowInput α) (k n h w : ℕ) (threshold : α)
    (hfx : (search inp k n h w (reproject inp n h w)).fx ≠ -1) :
    (search inp k n h w (reproject inp n h w)).dmin2 < 1000 * 1000 ∧
    validAt inp n (reproject inp n h w)
        ((search inp k n h w (reproject inp n h w)).fx,
         (search inp k n h w (reproject inp n h w)).fy) =
      some (search inp k n h w (reproject inp n h w)).dmin2 ∧
    ((search inp k n h w (reproject inp n h w)).dmin2 <
        threshold * threshold ↔
      (search inp k n h w (reproject inp n h w)).dmin2 <
        min threshold 1000 * min threshold 1000) := by
  obtain ⟨hlt, hv, _⟩ := search_some inp k n h w (reproject inp n h w) hfx
  refine ⟨hlt, hv, ?_⟩
  rcases le_total threshold 1000 with hmin | hmin
  · rw [min_eq_left hmin]
  · rw [min_eq_right hmin]
    constructor
    · intro _
      exact hlt
    · intro _
      have : (1000 : α) * 1000 ≤ threshold * threshold :=
        sq_le_sq_of_nonneg_le (by positivity) hmin
      linarith

theorem distance_cap_witness :
    (search inp6 1 0 0 0 (reproject inp6 0 0 0)).fx ≠ -1 ∧
    ((search inp6 1 0 0 0 (reproject inp6 0 0 0)).dmin2 < 1000 * 1000 ∧
    validAt inp6 0 (reproject inp6 0 0 0)
        ((search inp6 1 0 0 0 (reproject inp6 0 0 0)).fx,
         (search inp6 1 0 0 0 (reproject inp6 0 0 0)).fy) =
      some (search inp6 1 0 0 0 (reproject inp6 0 0 0)).dmin2 ∧
    ((search inp6 1 0 0 0 (reproject inp6 0 0 0)).dmin2 <
        (1000 : ℤ) * 1000 ↔
      (search inp6 1 0 0 0 (reproject inp6 0 0 0)).dmin2 <
        min 1000 1000 * min (1000 : ℤ) 1000)) :=
  ⟨by decide, distance_cap inp6 1 0 0 0 1000 (by decide)⟩

/-- C10: a previous-frame point with at least one NaN channel is skipped by
the loop body (the step leaves the running state unchanged) and can never be
the recorded match — the `std::isnan` test is a disjunction over the three
channels, so one NaN channel suffices. -/
theorem any_nan_skip (inp : FlowInput α) (k n h w : ℕ) (P : α × α × α)
    (x y : ℤ)
    (hnan : inp.im_points (neighborIndex inp n x y * 3 + 0) = none ∨
            inp.im_points (neighborIndex inp n x y * 3 + 1) = none ∨
            inp.im_points (neighborIndex inp n x y * 3 + 2) = none) :
    (∀ s : SearchState α, searchStep inp n P s (x, y) = s) ∧
    ((search inp k n h w P).fx ≠ -1 →
      ((search inp k n h w P).fx, (search inp k n h w P).fy) ≠ (x, y)) := by
  have hnp : neighborPoint inp n x y = none := by
    unfold neighborPoint
    by_cases hb : 0 ≤ x ∧ x < (inp.width : ℤ) ∧ 0 ≤ y ∧ y < (inp.height : ℤ)
    · rw [if_pos hb]
      rcases h0 : inp.im_points (neighborIndex inp n x y * 3 + 0) with _ | aX
      · rfl
      · rcases h1 : inp.im_points (neighborIndex inp n x y * 3 + 1) with _ | aY
        · rfl
        · rcases h2 : inp.im_points (neighborIndex inp n x y * 3 + 2) with _ | aZ
          · rfl
          · rcases hnan with hch | hch | hch
            · rw [h0] at hch
              cases hch
            · rw [h1] at hch
              cases hch
            · rw [h2] at hch
              cases hch
    · rw [if_neg hb]
  constructor
  · intro s
    unfold searchStep
    rw [hnp]
  · intro hfx heq
    obtain ⟨_, hv, _⟩ := search_some inp k n h w P hfx
    rw [heq] at hv
    simp [validAt, hnp] at hv

theorem any_nan_skip_witness :
    inp10.im_points (neighborIndex inp10 0 1 0 * 3 + 1) = none ∧
    ((∀ s : SearchState ℤ,
        searchStep inp10 0 (reproject inp10 0 0 0) s (1, 0) = s) ∧
      ((search inp10 1 0 0 0 (reproject inp10 0 0 0)).fx ≠ -1 →
        ((search inp10 1 0 0 0 (reproject inp10 0 0 0)).fx,
         (search inp10 1 0 0 0 (reproject inp10 0 0 0)).fy) ≠ (1, 0))) :=
  ⟨by decide,
    any_nan_skip inp10 1 0 0 0 (reproject inp10 0 0 0) 1 0
      (Or.inr (Or.inl (by decide)))⟩

/-- C4: when a match is recorded, it is the *first* valid neighbour in scan
order (outer loop over `x` ascending, inner over `y` ascending — the order
of `windowList`) attaining the minimum distance: every valid neighbour
scanned strictly before it is strictly farther (a later neighbour replaces
the running best only when strictly smaller), and every valid neighbour
after it is no closer. -/
theorem tie_break_first_wins (inp : FlowInput α) (k n h w : ℕ)
    (hfx : (search inp k n h w (reproject inp n h w)).fx ≠ -1) :
    ∃ l1 l2, windowList k h w =
        l1 ++ ((search inp k n h w (reproject inp n h w)).fx,
               (search inp k n h w (reproject inp n h w)).fy) :: l2 ∧
      validAt inp n (reproject inp n h w)
          ((search inp k n h w (reproject inp n h w)).fx,
           (search inp k n h w (reproject inp n h w)).fy) =
        some (search inp k n h w (reproject inp n h w)).dmin2 ∧
      (∀ xy ∈ l1, ∀ d, validAt inp n (reproject inp n h w) xy = some d →
        (search inp k n h w (reproject inp n h w)).dmin2 < d) ∧
      (∀ xy ∈ l2, ∀ d, validAt inp n (reproject inp n h w) xy = some d →
        (search inp k n h w (reproject inp n h w)).dmin2 ≤ d) := by
  obtain ⟨_, hv, l1, l2, hdec, hl1, hl2⟩ :=
    search_some inp k n h w (reproject inp n h w) hfx
  exact ⟨l1, l2, hdec, hv, hl1, hl2⟩

theorem tie_break_first_wins_witness :
    (search inp4 1 0 0 1 (reproject inp4 0 0 1)).fx ≠ -1 ∧
    (search inp4 1 0 0 1 (reproject inp4 0 0 1)).dmin2 = 1 ∧
    (search inp4 1 0 0 1 (reproject inp4 0 0 1)).fx = 0 ∧
    validAt inp4 0 (reproject inp4 0 0 1) (2, 0) = some 1 ∧
    (∃ l1 l2, windowList 1 0 1 =
        l1 ++ ((search inp4 1 0 0 1 (reproject inp4 0 0 1)).fx,
               (search inp4 1 0 0 1 (reproject inp4 0 0 1)).fy) :: l2 ∧
      validAt inp4 0 (reproject inp4 0 0 1)
          ((search inp4 1 0 0 1 (reproject inp4 0 0 1)).fx,
           (search inp4 1 0 0 1 (reproject inp4 0 0 1)).fy) =
        some (search inp4 1 0 0 1 (reproject inp4 0 0 1)).dmin2 ∧
      (∀ xy ∈ l1, ∀ d, validAt inp4 0 (reproject inp4 0 0 1) xy = some d →
        (search inp4 1 0 0 1 (reproject inp4 0 0 1)).dmin2 < d) ∧
      (∀ xy ∈ l2, ∀ d, validAt inp4 0 (reproject inp4 0 0 1) xy = some d →
        (search inp4 1 0 0 1 (reproject inp4 0 0 1)).dmin2 ≤ d)) :=
  ⟨by decide, by decide, by decide, by decide,
    tie_break_first_wins inp4 1 0 0 1 (by decide)⟩

/-- C5: for a pixel with positive depth the output 3D point equals the
live-to-world affine pose (rotation from metadata offsets 30..41, rows
packed 4 wide, with translation) applied to `depth` times the ray obtained
by applying the inverse intrinsic matrix (metadata offsets 9..17) to the
homogeneous pixel coordinate `(w, h, 1)`. -/
theorem reprojector_correct (inp : FlowInput α) (n h w : ℕ)
    (hd : 0 < inp.im_depth (indexPixel inp n h w)) :
    ∀ i, topPoints inp n h w i =
      some ((live2worldRot inp n).mulVec
          (inp.im_depth (indexPixel inp n h w) •
            (invIntrinsic inp n).mulVec ![(w : α), (h : α), 1]) i
        + live2worldTrans inp n i) := by
  intro i
  unfold topPoints
  rw [if_pos hd]
  fin_cases i <;>
  · simp only [reproject, invIntrinsic, live2worldRot, live2worldTrans,
      Matrix.mulVec, Matrix.dotProduct, Fin.sum_univ_three, Matrix.of_apply,
      Matrix.cons_val_zero, Matrix.cons_val_one, Matrix.head_cons,
      Matrix.cons_val_two, Matrix.tail_cons, Pi.smul_apply, smul_eq_mul,
      Fin.val_zero, Fin.val_one, Fin.val_two, Nat.cast_ofNat, Nat.cast_one,
      Nat.cast_zero]
    norm_num
    ring_nf

theorem reprojector_correct_witness :
    0 < inp6.im_depth (indexPixel inp6 0 0 1) ∧
    ∀ i, topPoints inp6 0 0 1 i =
      some ((live2worldRot inp6 0).mulVec
          (inp6.im_depth (indexPixel inp6 0 0 1) •
            (invIntrinsic inp6 0).mulVec ![((1 : ℕ) : ℤ), ((0 : ℕ) : ℤ), 1]) i
        + live2worldTrans inp6 0 i) :=
  ⟨by decide, reprojector_correct inp6 0 0 1 (by decide)⟩

/-- C6: on the 1×3×3×1 depth map `[[1,1,1],[1,0,1],[1,1,1]]` with
`kernel_size = 1`, `threshold = 1000`, identity camera metadata and
`prev_points` the reprojection of the same grid, the centre pixel (depth 0)
yields a zero output feature and the NaN-sentinel output point, while each
of the other 8 pixels yields its own grid point `(w, h, 1)` and transfers
its own source feature value unchanged (exact self-match, squared distance
0, matched at itself). -/
theorem self_match_scenario :
    ((∀ c, topData inp6 1 1000 0 1 1 c = 0) ∧
      (∀ i, topPoints inp6 0 1 1 i = none)) ∧
    (∀ h w : Fin 3, ¬((h : ℕ) = 1 ∧ (w : ℕ) = 1) →
      topData inp6 1 1000 0 h w 0 = data6 ((h : ℕ) * 3 + (w : ℕ)) ∧
      topPoints inp6 0 h w 0 = some ((w : ℕ) : ℤ) ∧
      topPoints inp6 0 h w 1 = some ((h : ℕ) : ℤ) ∧
      topPoints inp6 0 h w 2 = some 1 ∧
      (search inp6 1 0 h w (reproject inp6 0 h w)).dmin2 = 0 ∧
      (search inp6 1 0 h w (reproject inp6 0 h w)).fx = ((w : ℕ) : ℤ) ∧
      (search inp6 1 0 h w (reproject inp6 0 h w)).fy = ((h : ℕ) : ℤ)) := by
  constructor
  · exact ⟨fun c => topData_depth_nonpos inp6 1 1000 0 1 1 c (by decide),
           topPoints_depth_nonpos inp6 0 1 1 (by decide)⟩
  · decide

/-! ### Batch locality -/

theorem batch_pixel_bounds {H W : ℕ} (nz : ℤ) {x y : ℤ}
    (hx0 : 0 ≤ x) (hx : x < (W : ℤ)) (hy0 : 0 ≤ y) (hy : y < (H : ℤ)) :
    nz * H * W ≤ nz * H * W + y * W + x ∧
      nz * H * W + y * W + x < (nz + 1) * H * W := by
  have hW0 : (0 : ℤ) ≤ (W : ℤ) := Int.ofNat_nonneg W
  have e1 : y * (W : ℤ) ≤ ((H : ℤ) - 1) * W :=
    mul_le_mul_of_nonneg_right (by linarith) hW0
  have e2 : 0 ≤ y * (W : ℤ) := mul_nonneg hy0 hW0
  constructor
  · linarith
  · nlinarith

theorem batch_data_bounds {H W C : ℕ} (nz : ℤ) {x y : ℤ} {c : ℕ} (hc : c < C)
    (hx0 : 0 ≤ x) (hx : x < (W : ℤ)) (hy0 : 0 ≤ y) (hy : y < (H : ℤ)) :
    nz * H * W * C ≤ (nz * H * W + y * W + x) * C + (c : ℤ) ∧
      (nz * H * W + y * W + x) * C + (c : ℤ) < (nz + 1) * H * W * C := by
  obtain ⟨hlo, hhi⟩ := batch_pixel_bounds (H := H) (W := W) nz hx0 hx hy0 hy
  have hC0 : (0 : ℤ) < (C : ℤ) := by omega
  have hc0 : (0 : ℤ) ≤ (c : ℤ) := Int.ofNat_nonneg c
  have hc1 : (c : ℤ) < (C : ℤ) := by omega
  constructor
  · have e := mul_le_mul_of_nonneg_right hlo (le_of_lt hC0)
    linarith
  · have e1 : nz * H * W + y * W + x ≤ (nz + 1) * H * W - 1 := by linarith
    have e2 := mul_le_mul_of_nonneg_right e1 (le_of_lt hC0)
    nlinarith

theorem reproject_congr (inp inp2 : FlowInput α) (n h w : ℕ)
    (hht : inp2.height = inp.height) (hwd : inp2.width = inp.width)
    (hnm : inp2.num_meta_data = inp.num_meta_data)
    (hM : 42 ≤ inp.num_meta_data) (hh : h < inp.height) (hw : w < inp.width)
    (hdp : ∀ i : ℤ, (n : ℤ) * inp.height * inp.width ≤ i →
      i < ((n : ℤ) + 1) * inp.height * inp.width →
      inp2.im_depth i = inp.im_depth i)
    (hm : ∀ i : ℤ, (n : ℤ) * inp.num_meta_data ≤ i →
      i < ((n : ℤ) + 1) * inp.num_meta_data →
      inp2.meta_data i = inp.meta_data i) :
    reproject inp2 n h w = reproject inp n h w := by
  have hip : indexPixel inp2 n h w = indexPixel inp n h w := by
    unfold indexPixel
    rw [hht, hwd]
  have h42 : (42 : ℤ) ≤ (inp.num_meta_data : ℤ) := by exact_mod_cast hM
  have hnM : (0 : ℤ) ≤ (n : ℤ) * inp.num_meta_data := by positivity
  have hexp : ((n : ℤ) + 1) * inp.num_meta_data =
      (n : ℤ) * inp.num_meta_data + inp.num_meta_data := by ring
  have hmo : ∀ o : ℤ, 0 ≤ o → o < 42 →
      inp2.meta_data ((n : ℤ) * inp.num_meta_data + o) =
        inp.meta_data ((n : ℤ) * inp.num_meta_data + o) := by
    intro o ho1 ho2
    apply hm
    · linarith
    · rw [hexp]
      linarith
  have hdep : inp2.im_depth (indexPixel inp n h w) =
      inp.im_depth (indexPixel inp n h w) := by
    apply hdp
    · unfold indexPixel
      exact (batch_pixel_bounds (H := inp.height) (W := inp.width) (n : ℤ)
        (Int.ofNat_nonneg w) (by exact_mod_cast hw)
        (Int.ofNat_nonneg h) (by exact_mod_cast hh)).1
    · unfold indexPixel
      exact (batch_pixel_bounds (H := inp.height) (W := inp.width) (n : ℤ)
        (Int.ofNat_nonneg w) (by exact_mod_cast hw)
        (Int.ofNat_nonneg h) (by exact_mod_cast hh)).2
  simp only [reproject]
  rw [hip, hnm, hdep, hmo 9 (by norm_num) (by norm_num),
    hmo 10 (by norm_num) (by norm_num), hmo 11 (by norm_num) (by norm_num),
    hmo 12 (by norm_num) (by norm_num), hmo 13 (by norm_num) (by norm_num),
    hmo 14 (by norm_num) (by norm_num), hmo 15 (by norm_num) (by norm_num),
    hmo 16 (by norm_num) (by norm_num), hmo 17 (by norm_num) (by norm_num),
    hmo 30 (by norm_num) (by norm_num), hmo 31 (by norm_num) (by norm_num),
    hmo 32 (by norm_num) (by norm_num), hmo 33 (by norm_num) (by norm_num),
    hmo 34 (by norm_num) (by norm_num), hmo 35 (by norm_num) (by norm_num),
    hmo 36 (by norm_num) (by norm_num), hmo 37 (by norm_num) (by norm_num),
    hmo 38 (by norm_num) (by norm_num), hmo 39 (by norm_num) (by norm_num),
    hmo 40 (by norm_num) (by norm_num), hmo 41 (by norm_num) (by norm_num)]

theorem neighborPoint_congr (inp inp2 : FlowInput α) (n : ℕ)
    (hht : inp2.height = inp.height) (hwd : inp2.width = inp.width)
    (hp : ∀ i : ℤ, (n : ℤ) * inp.height * inp.width * 3 ≤ i →
      i < ((n : ℤ) + 1) * inp.height * inp.width * 3 →
      inp2.im_points i = inp.im_points i)
    (x y : ℤ) :
    neighborPoint inp2 n x y = neighborPoint inp n x y := by
  unfold neighborPoint neighborIndex
  rw [hht, hwd]
  by_cases hb : 0 ≤ x ∧ x < (inp.width : ℤ) ∧ 0 ≤ y ∧ y < (inp.height : ℤ)
  · obtain ⟨hx0, hx1, hy0, hy1⟩ := hb
    obtain ⟨hlo, hhi⟩ := batch_pixel_bounds (H := inp.height)
      (W := inp.width) (n : ℤ) hx0 hx1 hy0 hy1
    rw [if_pos ⟨hx0, hx1, hy0, hy1⟩, if_pos ⟨hx0, hx1, hy0, hy1⟩]
    have h0 := hp (((n : ℤ) * inp.height * inp.width + y * inp.width + x) * 3 + 0)
      (by linarith) (by linarith)
    have h1 := hp (((n : ℤ) * inp.height * inp.width + y * inp.width + x) * 3 + 1)
      (by linarith) (by linarith)
    have h2 := hp (((n : ℤ) * inp.height * inp.width + y * inp.width + x) * 3 + 2)
      (by linarith) (by linarith)
    rw [h0, h1, h2]
  · rw [if_neg hb, if_neg hb]

theorem search_congr (inp inp2 : FlowInput α) (k n h w : ℕ) (P : α × α × α)
    (hht : inp2.height = inp.height) (hwd : inp2.width = inp.width)
    (hp : ∀ i : ℤ, (n : ℤ) * inp.height * inp.width * 3 ≤ i →
      i < ((n : ℤ) + 1) * inp.height * inp.width * 3 →
      inp2.im_points i = inp.im_points i) :
    search inp2 k n h w P = search inp k n h w P := by
  unfold search
  have hstep : searchStep inp2 n P = searchStep inp n P := by
    funext s xy
    unfold searchStep
    rw [neighborPoint_congr inp inp2 n hht hwd hp xy.1 xy.2]
  rw [hstep]

/-- C7 (amended with `threshold ≤ 1000`): under the construction-time check
`0 ≤ threshold` and with `threshold` at most the initialisation constant
1000, the outputs of a pixel of batch element `n` depend only on batch
`n`'s own slices of the four input tensors (feature data, previous-frame 3D
points, depth) and on batch `n`'s own camera metadata record of length
`num_meta_data ≥ 42`: two inputs of the same dimensions that agree on those
slices produce identical `top_data` and `top_points` at that pixel — hence
permuting batch elements of all inputs permutes the outputs. -/
theorem batch_independence (inp inp2 : FlowInput α) (k : ℕ) (threshold : α)
    (n h w c : ℕ)
    (hht : inp2.height = inp.height) (hwd : inp2.width = inp.width)
    (hnc : inp2.num_channels = inp.num_channels)
    (hnm : inp2.num_meta_data = inp.num_meta_data)
    (hM : 42 ≤ inp.num_meta_data)
    (h0 : 0 ≤ threshold) (h1 : threshold ≤ 1000)
    (hh : h < inp.height) (hw : w < inp.width) (hc : c < inp.num_channels)
    (hdat : ∀ i : ℤ,
      (n : ℤ) * inp.height * inp.width * inp.num_channels ≤ i →
      i < ((n : ℤ) + 1) * inp.height * inp.width * inp.num_channels →
      inp2.bottom_data i = inp.bottom_data i)
    (hp : ∀ i : ℤ, (n : ℤ) * inp.height * inp.width * 3 ≤ i →
      i < ((n : ℤ) + 1) * inp.height * inp.width * 3 →
      inp2.im_points i = inp.im_points i)
    (hdp : ∀ i : ℤ, (n : ℤ) * inp.height * inp.width ≤ i →
      i < ((n : ℤ) + 1) * inp.height * inp.width →
      inp2.im_depth i = inp.im_depth i)
    (hm : ∀ i : ℤ, (n : ℤ) * inp.num_meta_data ≤ i →
      i < ((n : ℤ) + 1) * inp.num_meta_data →
      inp2.meta_data i = inp.meta_data i) :
    topData inp2 k threshold n h w c = topData inp k threshold n h w c ∧
    (∀ i, topPoints inp2 n h w i = topPoints inp n h w i) := by
  have hip : indexPixel inp2 n h w = indexPixel inp n h w := by
    unfold indexPixel
    rw [hht, hwd]
  have hdep : inp2.im_depth (indexPixel inp n h w) =
      inp.im_depth (indexPixel inp n h w) := by
    apply hdp
    · unfold indexPixel
      exact (batch_pixel_bounds (H := inp.height) (W := inp.width) (n : ℤ)
        (Int.ofNat_nonneg w) (by exact_mod_cast hw)
        (Int.ofNat_nonneg h) (by exact_mod_cast hh)).1
    · unfold indexPixel
      exact (batch_pixel_bounds (H := inp.height) (W := inp.width) (n : ℤ)
        (Int.ofNat_nonneg w) (by exact_mod_cast hw)
        (Int.ofNat_nonneg h) (by exact_mod_cast hh)).2
  have hrp : reproject inp2 n h w = reproject inp n h w :=
    reproject_congr inp inp2 n h w hht hwd hnm hM hh hw hdp hm
  have hsc : search inp2 k n h w (reproject inp n h w) =
      search inp k n h w (reproject inp n h w) :=
    search_congr inp inp2 k n h w (reproject inp n h w) hht hwd hp
  constructor
  · unfold topData
    rw [hip, hdep, hrp, hsc, hht, hwd, hnc]
    by_cases hdpos : 0 < inp.im_depth (indexPixel inp n h w)
    · rw [if_pos hdpos, if_pos hdpos]
      by_cases hg : (search inp k n h w (reproject inp n h w)).dmin2 <
          threshold * threshold
      · rw [if_pos hg, if_pos hg]
        have hfx := gate_fx inp k n h w (reproject inp n h w) threshold h0 h1 hg
        obtain ⟨_, hv, _⟩ := search_some inp k n h w (reproject inp n h w) hfx
        obtain ⟨Q, hQ, _⟩ := Option.map_eq_some'.mp hv
        obtain ⟨hb1, hb2, hb3, hb4⟩ := neighborPoint_some_bounds inp n _ _ Q hQ
        obtain ⟨hd1, hd2⟩ := batch_data_bounds (H := inp.height)
          (W := inp.width) (C := inp.num_channels) (n : ℤ) hc hb1 hb2 hb3 hb4
        exact hdat _ hd1 hd2
      · rw [if_neg hg, if_neg hg]
    · rw [if_neg hdpos, if_neg hdpos]
  · intro i
    unfold topPoints
    rw [hip, hdep, hrp]

theorem batch_independence_witness :
    topData inp62 1 1000 0 1 0 0 = topData inp6 1 1000 0 1 0 0 ∧
    (∀ i, topPoints inp62 0 1 0 i = topPoints inp6 0 1 0 i) :=
  batch_independence inp6 inp62 1 1000 0 1 0 0 rfl rfl rfl rfl
    (by decide) (by decide) (by decide) (by decide) (by decide) (by decide)
    (by
      intro i hi1 hi2
      simp only [inp6] at hi1 hi2
      show data62 i = data6 i
      unfold data62
      rw [if_pos (by omega)])
    (by
      intro i hi1 hi2
      simp only [inp6] at hi1 hi2
      show points62 i = points6 i
      unfold points62
      rw [if_pos (by omega)])
    (by
      intro i hi1 hi2
      simp only [inp6] at hi1 hi2
      show depth62 i = depth6 i
      unfold depth62
      rw [if_pos (by omega)])
    (by
      intro i hi1 hi2
      simp only [inp6] at hi1 hi2
      show meta62 i = meta6 i
      unfold meta62
      rw [if_pos (by omega)])

/-- C7 counterexample: `inpBswap` is `inpB` with its two batch elements
swapped in every input tensor (see `swapIdx`); batch-element permutation of
the outputs would require its batch-0 output at pixel `(0,0)` to equal
`inpB`'s batch-1 output there, but with `threshold = 1001` the copy branch
fires with the sentinel `fx = fy = -1` and reads feature data of the
neighbouring batch, so the two outputs differ (`-2` versus `2`). -/
theorem batch_independence_counterexample :
    topData inpBswap 0 1001 0 0 0 0 = -2 ∧
    topData inpB 0 1001 1 0 0 0 = 2 ∧
    topData inpBswap 0 1001 0 0 0 0 ≠ topData inpB 0 1001 1 0 0 0 :=
  ⟨by decide, by decide, by decide⟩
